import Mathlib

/-!
Shallow embedding of `pkg/rpc/tx_blob.go` (blob-carrying transaction
construction): `TransactBlobTx`, `createBlobTx`, `getNonce`,
`MakeSidecarWithSingleBlob`.

Modelling choices:
* `*big.Int` values are `Int`; `uint64` values are `Nat` (with explicit
  `% 2 ^ 64` where the Go code truncates); `uint256` fields are `Nat`
  (panicking conversions are modelled as an explicit error).
* Addresses, KZG commitments, proofs and versioned hashes are opaque and
  modelled as `Nat`.
* The network client (`EthClient`) and the external go-ethereum library
  functions (KZG commitment/proof, `eip4844.CalcBlobFee`, versioned-hash
  derivation) are capabilities collected in an `Env` record; each fallible
  capability returns `Except String` and its error is propagated wrapped in
  the `Err.external` constructor, so errors produced by this file's code are
  distinguishable from collaborator errors, exactly as the distinct Go error
  values are.
* Every network interaction appends a `NetCall` event to an explicit log
  threaded through the computation, so "no network call is issued" claims
  become statements about the final log.
-/

namespace TaikoRpc

/-- Header fields used by `createBlobTx`: `BaseFee *big.Int` and
`ExcessBlobGas *uint64`. -/
structure Header where
  BaseFee : Int
  ExcessBlobGas : Option Nat
deriving DecidableEq

/-- `ethereum.CallMsg` as populated by `createBlobTx` (source lines 79-87). -/
structure CallMsg where
  From : Nat
  To : Option Nat
  GasPrice : Option Int
  GasTipCap : Option Int
  GasFeeCap : Option Int
  Value : Option Int
  Data : List Nat
deriving DecidableEq

/-- `types.BlobTxSidecar`: parallel lists of blobs, commitments, proofs. -/
structure BlobTxSidecar where
  Blobs : List (List Nat)
  Commitments : List Nat
  Proofs : List Nat
deriving DecidableEq

/-- The fields of `types.BlobTx` that `createBlobTx` assembles
(source lines 134-146). -/
structure BlobTx where
  ChainID : Nat
  Nonce : Nat
  GasTipCap : Nat
  GasFeeCap : Nat
  Gas : Nat
  To : Nat
  Value : Nat
  Data : List Nat
  BlobFeeCap : Nat
  BlobHashes : List Nat
  Sidecar : BlobTxSidecar
deriving DecidableEq

/-- Errors originating in `tx_blob.go` itself, plus `external` for errors
returned by collaborators (network client, signer, KZG library) and
`mustFromBigPanic` for the panic of `uint256.MustFromBig`. -/
inductive Err where
  | noSigner : Err
  | invalidFeeOrdering (gasFeeCap gasTipCap : Int) : Err
  | payloadTooLarge : Err
  | mustFromBigPanic : Err
  | external (s : String) : Err
deriving DecidableEq

/-- The message text of each error, as produced by the Go source
(`errors.New` at line 25, `fmt.Errorf` at lines 73 and 160). -/
def Err.message : Err → String
  | .noSigner => "no signer to authorize the transaction with"
  | .invalidFeeOrdering f t =>
      "maxFeePerGas (" ++ toString f ++ ") < maxPriorityFeePerGas (" ++ toString t ++ ")"
  | .payloadTooLarge => "data is bigger than 128k"
  | .mustFromBigPanic => "panic in uint256 conversion"
  | .external s => s

/-- One network interaction of the client, with its arguments. -/
inductive NetCall where
  | headerByNumber : NetCall
  | suggestGasTipCap : NetCall
  | estimateGas (msg : CallMsg) : NetCall
  | pendingNonceAt (account : Nat) : NetCall
  | chainID : NetCall
  | sendTransaction (tx : BlobTx) : NetCall
deriving DecidableEq

/-- `bind.TransactOpts` as read by `TransactBlobTx`/`createBlobTx`.
`Signer` is the injected signing capability; `GasLimit` is a `uint64` whose
zero value means "not set" (source line 77); `Nonce`/`Value` are `*big.Int`
pointers, hence `Option Int`. -/
structure TransactOpts where
  From : Nat
  Signer : Option (Nat → BlobTx → Except String BlobTx)
  GasTipCap : Option Int
  GasFeeCap : Option Int
  GasLimit : Nat
  Nonce : Option Int
  Value : Option Int
  NoSend : Bool

/-- The capability set consumed by the engine: the `EthClient` network
methods plus the external go-ethereum library functions (KZG operations,
`eip4844.CalcBlobFee`, versioned-hash derivation), all abstract here. -/
structure Env where
  headerByNumber : Except String Header
  suggestGasTipCap : Except String Int
  estimateGas : CallMsg → Except String Nat
  pendingNonceAt : Nat → Except String Nat
  chainID : Except String Nat
  sendTransaction : BlobTx → Except String Unit
  blobToCommitment : List Nat → Except String Nat
  computeBlobProof : List Nat → Nat → Except String Nat
  kzgToVersionedHash : Nat → Nat
  calcBlobFee : Nat → Nat

/-- `(*big.Int).Uint64()`: the Go implementation returns the low 64 bits of
the absolute value. -/
def bigUint64 (x : Int) : Nat := x.natAbs % 2 ^ 64

/-- `uint256.MustFromBig`: panics (modelled as an error) unless the value
fits an unsigned 256-bit integer. -/
def mustFromBig (x : Int) : Except Err Nat :=
  if 0 ≤ x ∧ x < ((2 ^ 256 : Nat) : Int) then .ok x.toNat
  else .error .mustFromBigPanic

/-- `(*uint256.Int).SetFromBig`: reduces the value modulo `2 ^ 256`
(the overflow flag is discarded by the source). -/
def setFromBig (x : Int) : Nat := (x % ((2 ^ 256 : Nat) : Int)).toNat

/-- Modelled from the spec: the blob capacity constant `BlobBytes` is
declared elsewhere in the repository (only used in `src`); the spec fixes it
at 128 KiB. -/
def BlobBytes : Nat := 131072

/-- The blob built at source lines 162-163: a zero `kzg4844.Blob` with the
payload copied over its prefix (`copy` transfers at most `BlobBytes`
bytes). -/
def mkBlob (data : List Nat) : List Nat :=
  data.take BlobBytes ++ List.replicate (BlobBytes - data.length) 0

/-- Propagation of a collaborator error (`if err != nil { return nil, err }`
on a library call), wrapping it as `Err.external`. -/
def mapExternal {α : Type} (x : Except String α) : Except Err α :=
  match x with
  | .ok a => .ok a
  | .error e => .error (.external e)

/-- `MakeSidecarWithSingleBlob` (source lines 157-177). -/
def MakeSidecarWithSingleBlob (env : Env) (data : List Nat) :
    Except Err BlobTxSidecar :=
  if data.length > BlobBytes then .error .payloadTooLarge
  else
    Except.bind (mapExternal (env.blobToCommitment (mkBlob data))) fun commitment =>
    Except.bind (mapExternal (env.computeBlobProof (mkBlob data) commitment)) fun proof =>
    .ok { Blobs := [mkBlob data], Commitments := [commitment], Proofs := [proof] }

/-- `(*types.BlobTxSidecar).BlobHashes()`: one versioned hash per
commitment. -/
def BlobTxSidecar.BlobHashes (env : Env) (sc : BlobTxSidecar) : List Nat :=
  sc.Commitments.map env.kzgToVersionedHash

/-- Tip-cap resolution, extracted from source lines 56-63: the override if
present, otherwise the suggested tip. -/
def resolveTipCap (env : Env) (opts : TransactOpts) : Except String Int :=
  match opts.GasTipCap with
  | some t => .ok t
  | none => env.suggestGasTipCap

/-- Fee-cap resolution, extracted from source lines 65-71: the override if
present, otherwise `gasTipCap + header.BaseFee * 2`. -/
def resolveFeeCap (opts : TransactOpts) (gasTipCap : Int) (header : Header) : Int :=
  match opts.GasFeeCap with
  | some f => f
  | none => gasTipCap + header.BaseFee * 2

/-- Source lines 56-63, with the suggestion call logged. -/
def stepTipCap (env : Env) (opts : TransactOpts) (l : List NetCall) :
    Except Err Int × List NetCall :=
  match opts.GasTipCap with
  | some t => (.ok t, l)
  | none =>
    match env.suggestGasTipCap with
    | .ok t => (.ok t, l ++ [NetCall.suggestGasTipCap])
    | .error e => (.error (.external e), l ++ [NetCall.suggestGasTipCap])

/-- The `ethereum.CallMsg` literal of source lines 79-87: sender, recipient,
resolved tip and fee caps, and the calldata `input`; `GasPrice` and `Value`
are nil and the blob payload does not appear. -/
def estimateMsg (opts : TransactOpts) (contract : Option Nat)
    (input : List Nat) (gasTipCap gasFeeCap : Int) : CallMsg :=
  { From := opts.From, To := contract, GasPrice := none,
    GasTipCap := some gasTipCap, GasFeeCap := some gasFeeCap,
    Value := none, Data := input }

/-- Source lines 76-91: keep `opts.GasLimit` unless it is zero, in which
case estimate gas with the call message of lines 79-87 (note: `Data` is the
calldata `input`, the blob payload is not passed). -/
def stepGasLimit (env : Env) (opts : TransactOpts) (contract : Option Nat)
    (input : List Nat) (gasTipCap gasFeeCap : Int) (l : List NetCall) :
    Except Err Nat × List NetCall :=
  if opts.GasLimit = 0 then
    match env.estimateGas (estimateMsg opts contract input gasTipCap gasFeeCap) with
    | .ok g =>
        (.ok g, l ++ [NetCall.estimateGas (estimateMsg opts contract input gasTipCap gasFeeCap)])
    | .error e =>
        (.error (.external e),
          l ++ [NetCall.estimateGas (estimateMsg opts contract input gasTipCap gasFeeCap)])
  else (.ok opts.GasLimit, l)

/-- `getNonce` (source lines 150-155). -/
def getNonce (env : Env) (opts : TransactOpts) (l : List NetCall) :
    Except Err Nat × List NetCall :=
  match opts.Nonce with
  | none =>
    match env.pendingNonceAt opts.From with
    | .ok n => (.ok n, l ++ [NetCall.pendingNonceAt opts.From])
    | .error e => (.error (.external e), l ++ [NetCall.pendingNonceAt opts.From])
  | some n => (.ok (bigUint64 n), l)

/-- Source lines 93-102: explicit nonce is truncated with `Uint64()`,
otherwise `getNonce` is consulted. -/
def stepNonce (env : Env) (opts : TransactOpts) (l : List NetCall) :
    Except Err Nat × List NetCall :=
  match opts.Nonce with
  | none => getNonce env opts l
  | some n => (.ok (bigUint64 n), l)

/-- Source lines 117-121: the excess-blob-gas argument of the blob-fee
computation: the header's indicator when present, otherwise the fixed
fallback constant 100066. -/
def excessOrDefault (header : Header) : Nat :=
  match header.ExcessBlobGas with
  | some e => e
  | none => 100066

/-- Source lines 123-127: absent value is normalized to zero, a present
value goes through `uint256.SetFromBig`. -/
def normalizeValue (v : Option Int) : Nat :=
  match v with
  | some x => setFromBig x
  | none => 0

/-- Source lines 129-132: absent recipient is normalized to the zero
address. -/
def normalizeAddr (contract : Option Nat) : Nat :=
  match contract with
  | some a => a
  | none => 0

/-- Go-style sequencing with early return: an error pair is propagated
unchanged (`if err != nil { return nil, err }`), otherwise the continuation
runs on the value and the log so far. -/
def andThen {α β : Type} (x : Except Err α × List NetCall)
    (f : α → List NetCall → Except Err β × List NetCall) :
    Except Err β × List NetCall :=
  match x with
  | (.ok a, l) => f a l
  | (.error e, l) => (.error e, l)

/-- Source lines 51-54: fetch the latest header, logging the call. -/
def stepHeader (env : Env) (l : List NetCall) :
    Except Err Header × List NetCall :=
  match env.headerByNumber with
  | .ok h => (.ok h, l ++ [NetCall.headerByNumber])
  | .error e => (.error (.external e), l ++ [NetCall.headerByNumber])

/-- Source lines 72-74: reject when the resolved fee cap is strictly below
the resolved tip cap. -/
def checkFeeOrdering (gasFeeCap gasTipCap : Int) (l : List NetCall) :
    Except Err Unit × List NetCall :=
  if gasFeeCap < gasTipCap then
    (.error (.invalidFeeOrdering gasFeeCap gasTipCap), l)
  else (.ok (), l)

/-- Source lines 104-108: fetch the chain id, logging the call. -/
def stepChainID (env : Env) (l : List NetCall) :
    Except Err Nat × List NetCall :=
  match env.chainID with
  | .ok c => (.ok c, l ++ [NetCall.chainID])
  | .error e => (.error (.external e), l ++ [NetCall.chainID])

/-- Source lines 117-147: the final struct literal. The three
`uint256.MustFromBig` conversions (lines 137, 138, 143) are evaluated in
field order; `uint256.NewInt(chainID.Uint64())` truncates the chain id to
its low 64 bits. -/
def assembleBlobTx (env : Env) (opts : TransactOpts) (contract : Option Nat)
    (input : List Nat) (header : Header) (gasTipCap : Int)
    (gasLimit nonce chainID : Nat) (sidecar : BlobTxSidecar) :
    Except Err BlobTx :=
  Except.bind (mustFromBig gasTipCap) fun tip256 =>
  Except.bind (mustFromBig (resolveFeeCap opts gasTipCap header)) fun fee256 =>
  Except.bind (mustFromBig ((env.calcBlobFee (excessOrDefault header) : Nat) : Int))
    fun blobFee256 =>
  Except.ok
    { ChainID := chainID % 2 ^ 64, Nonce := nonce, GasTipCap := tip256,
      GasFeeCap := fee256, Gas := gasLimit, To := normalizeAddr contract,
      Value := normalizeValue opts.Value, Data := input,
      BlobFeeCap := blobFee256,
      BlobHashes := BlobTxSidecar.BlobHashes env sidecar,
      Sidecar := sidecar }

/-- `createBlobTx` (source lines 45-148), threading the network-call log.
Each stage mirrors the corresponding source section, sequenced with the
early-return combinator exactly as the Go code checks each `err`. The
discarded `sidecar.BlobHashes()` call at line 115 is pure and has no
effect. -/
def createBlobTx (env : Env) (opts : TransactOpts) (contract : Option Nat)
    (input blobData : List Nat) (l : List NetCall) :
    Except Err BlobTx × List NetCall :=
  andThen (stepHeader env l) fun header l0 =>
  andThen (stepTipCap env opts l0) fun gasTipCap l1 =>
  andThen (checkFeeOrdering (resolveFeeCap opts gasTipCap header) gasTipCap l1) fun _ l1b =>
  andThen (stepGasLimit env opts contract input gasTipCap
      (resolveFeeCap opts gasTipCap header) l1b) fun gasLimit l2 =>
  andThen (stepNonce env opts l2) fun nonce l3 =>
  andThen (stepChainID env l3) fun chainID l4 =>
  andThen (MakeSidecarWithSingleBlob env blobData, l4) fun sidecar l5 =>
  (assembleBlobTx env opts contract input header gasTipCap gasLimit nonce chainID sidecar, l5)

/-- `TransactBlobTx` (source lines 17-43). The Go function returns the pair
`(*types.Transaction, error)`; both components are modelled explicitly so
that each `return` statement is mirrored literally (in particular line 40
returns `nil` together with the submission error). -/
def TransactBlobTx (env : Env) (opts : TransactOpts) (contract : Option Nat)
    (input blobData : List Nat) (l : List NetCall) :
    (Option BlobTx × Option Err) × List NetCall :=
  match opts.Signer with
  | none => ((none, some .noSigner), l)
  | some signer =>
    match createBlobTx env opts contract input blobData l with
    | (.error e, l2) => ((none, some e), l2)
    | (.ok rawTx, l2) =>
      match signer opts.From rawTx with
      | .error e => ((none, some (.external e)), l2)
      | .ok signedTx =>
        if opts.NoSend then ((some signedTx, none), l2)
        else
          match env.sendTransaction signedTx with
          | .error e => ((none, some (.external e)), l2 ++ [NetCall.sendTransaction signedTx])
          | .ok _ => ((some signedTx, none), l2 ++ [NetCall.sendTransaction signedTx])

/-! ### Concrete fixtures for witnesses and counterexamples -/

/-- A signing capability that returns the transaction unchanged. -/
def idSigner : Nat → BlobTx → Except String BlobTx := fun _ tx => .ok tx

/-- A concrete header: base fee 7, no excess-blob-gas indicator. -/
def hdrX : Header := { BaseFee := 7, ExcessBlobGas := none }

/-- A concrete capability set where every call succeeds. -/
def envX : Env :=
  { headerByNumber := .ok hdrX
    suggestGasTipCap := .ok 1
    estimateGas := fun _ => .ok 21000
    pendingNonceAt := fun _ => .ok 5
    chainID := .ok 1
    sendTransaction := fun _ => .ok ()
    blobToCommitment := fun _ => .ok 0
    computeBlobProof := fun _ _ => .ok 0
    kzgToVersionedHash := fun _ => 0
    calcBlobFee := fun _ => 1 }

/-- `envX` with a failing broadcast capability. -/
def envSendFail : Env := { envX with sendTransaction := fun _ => .error "boom" }

/-- `envX` with a fetched chain id that does not fit in 64 bits. -/
def envBig : Env := { envX with chainID := .ok (2 ^ 64 + 7) }

/-- Intent with no overrides at all (scenario A shape). -/
def opts6 : TransactOpts :=
  { From := 0, Signer := some idSigner, GasTipCap := none, GasFeeCap := none,
    GasLimit := 0, Nonce := none, Value := none, NoSend := true }

/-- Intent with explicit tip cap 10 and fee cap 5 (scenario C). -/
def opts3 : TransactOpts :=
  { From := 0, Signer := some idSigner, GasTipCap := some 10, GasFeeCap := some 5,
    GasLimit := 0, Nonce := none, Value := none, NoSend := true }

/-- Intent carrying no signing capability (scenario D). -/
def opts4 : TransactOpts :=
  { From := 0, Signer := none, GasTipCap := none, GasFeeCap := none,
    GasLimit := 0, Nonce := none, Value := none, NoSend := false }

/-- Intent with all fee fields explicit, nonce 7, submission requested. -/
def optsSend : TransactOpts :=
  { From := 0, Signer := some idSigner, GasTipCap := some 1, GasFeeCap := some 2,
    GasLimit := 21000, Nonce := some 7, Value := none, NoSend := false }

/-- Intent with the explicit nonce `2 ^ 64`, one past the 64-bit range. -/
def opts7 : TransactOpts :=
  { From := 0, Signer := some idSigner, GasTipCap := some 1, GasFeeCap := some 2,
    GasLimit := 21000, Nonce := some ((2 ^ 64 : Nat) : Int), Value := none,
    NoSend := true }

/-- Intent with the explicit nonce 42 (scenario E). -/
def optsE : TransactOpts :=
  { From := 0, Signer := some idSigner, GasTipCap := some 1, GasFeeCap := some 2,
    GasLimit := 21000, Nonce := some 42, Value := none, NoSend := true }

/-- The sidecar produced by `envX`'s KZG capabilities for an empty payload. -/
def sidecar0 : BlobTxSidecar :=
  { Blobs := [mkBlob []], Commitments := [0], Proofs := [0] }

/-- The gas-estimation message issued for `opts6` (tip 1 suggested, fee
1 + 7·2 = 15). -/
def msg6 : CallMsg := estimateMsg opts6 none [] 1 15

/-- The transaction assembled for `opts6` under `envX`. -/
def tx6 : BlobTx :=
  { ChainID := 1, Nonce := 5, GasTipCap := 1, GasFeeCap := 15, Gas := 21000,
    To := 0, Value := 0, Data := [], BlobFeeCap := 1, BlobHashes := [0],
    Sidecar := sidecar0 }

/-- The network calls issued for `opts6` under `envX`. -/
def log6 : List NetCall :=
  [NetCall.headerByNumber, NetCall.suggestGasTipCap, NetCall.estimateGas msg6,
   NetCall.pendingNonceAt 0, NetCall.chainID]

/-- The transaction assembled for `optsSend` under `envSendFail`. -/
def txS : BlobTx :=
  { ChainID := 1, Nonce := 7, GasTipCap := 1, GasFeeCap := 2, Gas := 21000,
    To := 0, Value := 0, Data := [], BlobFeeCap := 1, BlobHashes := [0],
    Sidecar := sidecar0 }

/-- The transaction assembled for `optsE` under `envX`. -/
def txE : BlobTx :=
  { ChainID := 1, Nonce := 42, GasTipCap := 1, GasFeeCap := 2, Gas := 21000,
    To := 0, Value := 0, Data := [], BlobFeeCap := 1, BlobHashes := [0],
    Sidecar := sidecar0 }

/-- The transaction assembled for `opts6` under `envBig`: the oversized
chain id is silently truncated to its low 64 bits. -/
def txBig : BlobTx := { tx6 with ChainID := 7 }

/-- The network calls issued for `optsE` (all fee fields and the gas limit
explicit, nonce explicit) under `envX`. -/
def logE : List NetCall := [NetCall.headerByNumber, NetCall.chainID]

/-! ### Helper lemmas -/

theorem mustFromBig_ok {x : Int} {v : Nat} (h : mustFromBig x = .ok v) :
    0 ≤ x ∧ x < ((2 ^ 256 : Nat) : Int) ∧ v = x.toNat := by
  unfold mustFromBig at h
  split at h
  next hc =>
    refine ⟨hc.1, hc.2, ?_⟩
    injection h with h
    omega
  next => exact absurd h (by simp)

theorem mustFromBig_error {x : Int} {e : Err} (h : mustFromBig x = .error e) :
    e = .mustFromBigPanic := by
  unfold mustFromBig at h
  split at h
  · exact absurd h (by simp)
  · injection h with h
    exact h.symm

theorem stepTipCap_ok {env : Env} {opts : TransactOpts} {l : List NetCall}
    {t : Int} {l' : List NetCall}
    (h : stepTipCap env opts l = (.ok t, l')) :
    resolveTipCap env opts = .ok t
    ∧ (l' = l ∨ l' = l ++ [NetCall.suggestGasTipCap]) := by
  cases hgt : opts.GasTipCap with
  | some x =>
    simp only [stepTipCap, hgt] at h
    obtain ⟨h1, h2⟩ := Prod.mk.injEq .. ▸ h
    injection h1 with h1
    subst h1 h2
    exact ⟨by simp [resolveTipCap, hgt], Or.inl rfl⟩
  | none =>
    simp only [stepTipCap, hgt] at h
    cases hs : env.suggestGasTipCap with
    | ok x =>
      rw [hs] at h
      obtain ⟨h1, h2⟩ := Prod.mk.injEq .. ▸ h
      injection h1 with h1
      subst h1 h2
      exact ⟨by simp [resolveTipCap, hgt, hs], Or.inr rfl⟩
    | error e =>
      rw [hs] at h
      simp at h

theorem stepTipCap_error_shape {env : Env} {opts : TransactOpts} {l : List NetCall}
    {e : Err} {l' : List NetCall}
    (h : stepTipCap env opts l = (.error e, l')) : ∃ s, e = .external s := by
  unfold stepTipCap at h
  split at h
  · simp at h
  · split at h
    · simp at h
    next s _ =>
      refine ⟨s, ?_⟩
      obtain ⟨h1, _⟩ := Prod.mk.injEq .. ▸ h
      injection h1 with h1
      exact h1.symm

theorem stepTipCap_of_resolve {env : Env} {opts : TransactOpts} {t : Int}
    (h : resolveTipCap env opts = .ok t) (l : List NetCall) :
    ∃ l', stepTipCap env opts l = (.ok t, l') := by
  cases hgt : opts.GasTipCap with
  | some x =>
    simp only [resolveTipCap, hgt] at h
    injection h with h
    subst h
    exact ⟨l, by simp [stepTipCap, hgt]⟩
  | none =>
    simp only [resolveTipCap, hgt] at h
    exact ⟨l ++ [NetCall.suggestGasTipCap], by simp [stepTipCap, hgt, h]⟩

theorem stepGasLimit_ok {env : Env} {opts : TransactOpts} {contract : Option Nat}
    {input : List Nat} {tip fee : Int} {g : Nat} {l l' : List NetCall}
    (h : stepGasLimit env opts contract input tip fee l = (.ok g, l')) :
    (opts.GasLimit ≠ 0 → g = opts.GasLimit ∧ l' = l)
    ∧ (opts.GasLimit = 0 →
        env.estimateGas (estimateMsg opts contract input tip fee) = .ok g
        ∧ l' = l ++ [NetCall.estimateGas (estimateMsg opts contract input tip fee)]) := by
  unfold stepGasLimit at h
  split at h
  next hz =>
    refine ⟨fun hnz => absurd hz hnz, fun _ => ?_⟩
    split at h
    next g0 hest =>
      obtain ⟨h1, h2⟩ := Prod.mk.injEq .. ▸ h
      injection h1 with h1
      subst h1 h2
      exact ⟨hest, rfl⟩
    next => simp at h
  next hz =>
    refine ⟨fun _ => ?_, fun hzz => absurd hzz hz⟩
    obtain ⟨h1, h2⟩ := Prod.mk.injEq .. ▸ h
    injection h1 with h1
    subst h2
    exact ⟨h1.symm, rfl⟩

theorem stepGasLimit_error_shape {env : Env} {opts : TransactOpts}
    {contract : Option Nat} {input : List Nat} {tip fee : Int} {e : Err}
    {l l' : List NetCall}
    (h : stepGasLimit env opts contract input tip fee l = (.error e, l')) :
    ∃ s, e = .external s := by
  unfold stepGasLimit at h
  split at h
  · split at h
    · simp at h
    next s _ =>
      refine ⟨s, ?_⟩
      obtain ⟨h1, _⟩ := Prod.mk.injEq .. ▸ h
      injection h1 with h1
      exact h1.symm
  · simp at h

theorem stepNonce_ok {env : Env} {opts : TransactOpts} {n : Nat} {l l' : List NetCall}
    (h : stepNonce env opts l = (.ok n, l')) :
    (∀ m, opts.Nonce = some m → n = bigUint64 m ∧ l' = l)
    ∧ (opts.Nonce = none →
        env.pendingNonceAt opts.From = .ok n
        ∧ l' = l ++ [NetCall.pendingNonceAt opts.From]) := by
  cases hn : opts.Nonce with
  | none =>
    refine ⟨fun m hm => by simp [hn] at hm, fun _ => ?_⟩
    cases hpn : env.pendingNonceAt opts.From with
    | ok n0 =>
      simp only [stepNonce, getNonce, hn, hpn, Prod.mk.injEq, Except.ok.injEq] at h
      obtain ⟨h1, h2⟩ := h
      subst h1
      exact ⟨rfl, h2.symm⟩
    | error e =>
      simp [stepNonce, getNonce, hn, hpn] at h
  | some m0 =>
    simp only [stepNonce, hn, Prod.mk.injEq, Except.ok.injEq] at h
    obtain ⟨h1, h2⟩ := h
    refine ⟨fun m hm => ?_, fun hnone => by simp [hn] at hnone⟩
    injection hm with hm
    subst hm
    exact ⟨h1.symm, h2.symm⟩

theorem stepNonce_error_shape {env : Env} {opts : TransactOpts} {e : Err}
    {l l' : List NetCall}
    (h : stepNonce env opts l = (.error e, l')) : ∃ s, e = .external s := by
  cases hn : opts.Nonce with
  | none =>
    cases hpn : env.pendingNonceAt opts.From with
    | ok n0 => simp [stepNonce, getNonce, hn, hpn] at h
    | error s =>
      refine ⟨s, ?_⟩
      simp only [stepNonce, getNonce, hn, hpn, Prod.mk.injEq, Except.error.injEq] at h
      exact h.1.symm
  | some m0 => simp [stepNonce, hn] at h



theorem andThen_ok {α β : Type} {x : Except Err α × List NetCall}
    {f : α → List NetCall → Except Err β × List NetCall} {b : β} {l' : List NetCall}
    (h : andThen x f = (.ok b, l')) :
    ∃ a l1, x = (.ok a, l1) ∧ f a l1 = (.ok b, l') := by
  obtain ⟨r, l1⟩ := x
  cases r with
  | ok a => exact ⟨a, l1, rfl, h⟩
  | error e => simp [andThen] at h

theorem andThen_error {α β : Type} {x : Except Err α × List NetCall}
    {f : α → List NetCall → Except Err β × List NetCall} {e : Err} {l' : List NetCall}
    (h : andThen x f = (.error e, l')) :
    x = (.error e, l') ∨ ∃ a l1, x = (.ok a, l1) ∧ f a l1 = (.error e, l') := by
  obtain ⟨r, l1⟩ := x
  cases r with
  | ok a => exact Or.inr ⟨a, l1, rfl, h⟩
  | error e0 =>
    refine Or.inl ?_
    simpa [andThen] using h

theorem andThen_cont {α β : Type} {x : Except Err α × List NetCall} {a : α}
    {l1 : List NetCall} (h : x = (.ok a, l1))
    (f : α → List NetCall → Except Err β × List NetCall) :
    andThen x f = f a l1 := by
  rw [h]
  simp [andThen]

theorem exceptBind_ok {α β : Type} {x : Except Err α} {f : α → Except Err β} {b : β}
    (h : Except.bind x f = .ok b) : ∃ a, x = .ok a ∧ f a = .ok b := by
  cases x with
  | ok a => exact ⟨a, rfl, h⟩
  | error e => simp [Except.bind] at h

theorem exceptBind_error {α β : Type} {x : Except Err α} {f : α → Except Err β} {e : Err}
    (h : Except.bind x f = .error e) :
    x = .error e ∨ ∃ a, x = .ok a ∧ f a = .error e := by
  cases x with
  | ok a => exact Or.inr ⟨a, rfl, h⟩
  | error e0 =>
    refine Or.inl ?_
    simpa [Except.bind] using h

theorem mapExternal_eval {α : Type} {x : Except String α} {a : α} (h : x = .ok a) :
    mapExternal x = .ok a := by
  subst h
  rfl

theorem mapExternal_error_shape {α : Type} {x : Except String α} {e : Err}
    (h : mapExternal x = .error e) : ∃ s, x = .error s ∧ e = .external s := by
  cases x with
  | ok a => simp [mapExternal] at h
  | error s =>
    refine ⟨s, rfl, ?_⟩
    have h2 : (Except.error (Err.external s) : Except Err α) = .error e := h
    injection h2 with h2
    exact h2.symm

theorem exceptBind_cont {α β : Type} {x : Except Err α} {a : α} (h : x = .ok a)
    (f : α → Except Err β) : Except.bind x f = f a := by
  subst h
  rfl

theorem MakeSidecar_error_shape {env : Env} {data : List Nat} {e : Err}
    (h : MakeSidecarWithSingleBlob env data = .error e) :
    e = .payloadTooLarge ∨ ∃ s, e = .external s := by
  unfold MakeSidecarWithSingleBlob at h
  split at h
  · injection h with h
    exact Or.inl h.symm
  · rcases exceptBind_error h with hc | ⟨cmt, hc, h1⟩
    · obtain ⟨s, -, hs⟩ := mapExternal_error_shape hc
      exact Or.inr ⟨s, hs⟩
    rcases exceptBind_error h1 with hp | ⟨prf, hp, h2⟩
    · obtain ⟨s, -, hs⟩ := mapExternal_error_shape hp
      exact Or.inr ⟨s, hs⟩
    exact absurd h2 (by simp)

theorem stepHeader_ok {env : Env} {l l' : List NetCall} {header : Header}
    (h : stepHeader env l = (.ok header, l')) :
    env.headerByNumber = .ok header ∧ l' = l ++ [NetCall.headerByNumber] := by
  cases hH : env.headerByNumber with
  | ok h0 =>
    simp only [stepHeader, hH, Prod.mk.injEq, Except.ok.injEq] at h
    exact ⟨by rw [h.1], h.2.symm⟩
  | error e => simp [stepHeader, hH] at h

theorem stepHeader_error_shape {env : Env} {l l' : List NetCall} {e : Err}
    (h : stepHeader env l = (.error e, l')) : ∃ s, e = .external s := by
  cases hH : env.headerByNumber with
  | ok h0 => simp [stepHeader, hH] at h
  | error s =>
    simp only [stepHeader, hH, Prod.mk.injEq, Except.error.injEq] at h
    exact ⟨s, h.1.symm⟩

theorem stepChainID_ok {env : Env} {l l' : List NetCall} {c : Nat}
    (h : stepChainID env l = (.ok c, l')) :
    env.chainID = .ok c ∧ l' = l ++ [NetCall.chainID] := by
  cases hC : env.chainID with
  | ok c0 =>
    simp only [stepChainID, hC, Prod.mk.injEq, Except.ok.injEq] at h
    exact ⟨by rw [h.1], h.2.symm⟩
  | error e => simp [stepChainID, hC] at h

theorem stepChainID_error_shape {env : Env} {l l' : List NetCall} {e : Err}
    (h : stepChainID env l = (.error e, l')) : ∃ s, e = .external s := by
  cases hC : env.chainID with
  | ok c0 => simp [stepChainID, hC] at h
  | error s =>
    simp only [stepChainID, hC, Prod.mk.injEq, Except.error.injEq] at h
    exact ⟨s, h.1.symm⟩

theorem checkFeeOrdering_ok {fee tip : Int} {l l' : List NetCall} {u : Unit}
    (h : checkFeeOrdering fee tip l = (.ok u, l')) :
    ¬ (fee < tip) ∧ l' = l := by
  unfold checkFeeOrdering at h
  split at h
  · simp at h
  next hord =>
    obtain ⟨-, h2⟩ := Prod.mk.injEq .. ▸ h
    exact ⟨hord, h2.symm⟩

theorem checkFeeOrdering_error {fee tip : Int} {l l' : List NetCall} {e : Err}
    (h : checkFeeOrdering fee tip l = (.error e, l')) :
    fee < tip ∧ e = .invalidFeeOrdering fee tip ∧ l' = l := by
  unfold checkFeeOrdering at h
  split at h
  next hord =>
    obtain ⟨h1, h2⟩ := Prod.mk.injEq .. ▸ h
    injection h1 with h1
    exact ⟨hord, h1.symm, h2.symm⟩
  · simp at h

theorem assembleBlobTx_ok {env : Env} {opts : TransactOpts} {contract : Option Nat}
    {input : List Nat} {header : Header} {gasTipCap : Int}
    {gasLimit nonce chainID : Nat} {sidecar : BlobTxSidecar} {tx : BlobTx}
    (h : assembleBlobTx env opts contract input header gasTipCap gasLimit
        nonce chainID sidecar = .ok tx) :
    0 ≤ gasTipCap ∧ gasTipCap < ((2 ^ 256 : Nat) : Int)
    ∧ 0 ≤ resolveFeeCap opts gasTipCap header
    ∧ resolveFeeCap opts gasTipCap header < ((2 ^ 256 : Nat) : Int)
    ∧ tx = { ChainID := chainID % 2 ^ 64, Nonce := nonce,
             GasTipCap := gasTipCap.toNat,
             GasFeeCap := (resolveFeeCap opts gasTipCap header).toNat,
             Gas := gasLimit, To := normalizeAddr contract,
             Value := normalizeValue opts.Value, Data := input,
             BlobFeeCap := env.calcBlobFee (excessOrDefault header),
             BlobHashes := BlobTxSidecar.BlobHashes env sidecar,
             Sidecar := sidecar } := by
  unfold assembleBlobTx at h
  obtain ⟨tip256, hT, h1⟩ := exceptBind_ok h
  obtain ⟨fee256, hF, h2⟩ := exceptBind_ok h1
  obtain ⟨blobFee256, hB, h3⟩ := exceptBind_ok h2
  have h : Except.ok (ε := Err)
      { ChainID := chainID % 2 ^ 64, Nonce := nonce, GasTipCap := tip256,
        GasFeeCap := fee256, Gas := gasLimit, To := normalizeAddr contract,
        Value := normalizeValue opts.Value, Data := input,
        BlobFeeCap := blobFee256,
        BlobHashes := BlobTxSidecar.BlobHashes env sidecar,
        Sidecar := sidecar } = .ok tx := h3
  injection h with h
  obtain ⟨hT1, hT2, hT3⟩ := mustFromBig_ok hT
  obtain ⟨hF1, hF2, hF3⟩ := mustFromBig_ok hF
  obtain ⟨-, -, hB3⟩ := mustFromBig_ok hB
  refine ⟨hT1, hT2, hF1, hF2, ?_⟩
  rw [← h, hT3, hF3, hB3]
  simp

theorem assembleBlobTx_error {env : Env} {opts : TransactOpts} {contract : Option Nat}
    {input : List Nat} {header : Header} {gasTipCap : Int}
    {gasLimit nonce chainID : Nat} {sidecar : BlobTxSidecar} {e : Err}
    (h : assembleBlobTx env opts contract input header gasTipCap gasLimit
        nonce chainID sidecar = .error e) :
    e = .mustFromBigPanic := by
  unfold assembleBlobTx at h
  rcases exceptBind_error h with hT | ⟨tip256, hT, h1⟩
  · exact mustFromBig_error hT
  rcases exceptBind_error h1 with hF | ⟨fee256, hF, h2⟩
  · exact mustFromBig_error hF
  rcases exceptBind_error h2 with hB | ⟨blobFee256, hB, h3⟩
  · exact mustFromBig_error hB
  exact absurd h3 (by simp)

/-- Inversion for a successful `createBlobTx` run: every stage succeeded,
the fee-ordering check passed, and the transaction is the assembled struct
literal. -/
theorem createBlobTx_ok_inv {env : Env} {opts : TransactOpts} {contract : Option Nat}
    {input blobData : List Nat} {tx : BlobTx} {log : List NetCall}
    (hres : createBlobTx env opts contract input blobData [] = (.ok tx, log)) :
    ∃ header gasTipCap l1 gasLimit l2 nonce l3 cid sidecar,
      env.headerByNumber = .ok header
      ∧ stepTipCap env opts [NetCall.headerByNumber] = (.ok gasTipCap, l1)
      ∧ ¬ (resolveFeeCap opts gasTipCap header < gasTipCap)
      ∧ stepGasLimit env opts contract input gasTipCap
          (resolveFeeCap opts gasTipCap header) l1 = (.ok gasLimit, l2)
      ∧ stepNonce env opts l2 = (.ok nonce, l3)
      ∧ env.chainID = .ok cid
      ∧ MakeSidecarWithSingleBlob env blobData = .ok sidecar
      ∧ assembleBlobTx env opts contract input header gasTipCap gasLimit
          nonce cid sidecar = .ok tx
      ∧ log = l3 ++ [NetCall.chainID] := by
  unfold createBlobTx at hres
  obtain ⟨header, l0, hH, h1⟩ := andThen_ok hres
  obtain ⟨hH1, hH2⟩ := stepHeader_ok hH
  rw [List.nil_append] at hH2
  obtain ⟨gasTipCap, l1, hTip, h2⟩ := andThen_ok h1
  obtain ⟨u, l1b, hOrd, h3⟩ := andThen_ok h2
  obtain ⟨hOrd1, hOrd2⟩ := checkFeeOrdering_ok hOrd
  obtain ⟨gasLimit, l2, hGas, h4⟩ := andThen_ok h3
  obtain ⟨nonce, l3, hNonce, h5⟩ := andThen_ok h4
  obtain ⟨cid, l4, hCid, h6⟩ := andThen_ok h5
  obtain ⟨hCid1, hCid2⟩ := stepChainID_ok hCid
  obtain ⟨sidecar, l5, hSide, h7⟩ := andThen_ok h6
  have hSide1 : MakeSidecarWithSingleBlob env blobData = .ok sidecar :=
    congrArg Prod.fst hSide
  have hSide2 : l4 = l5 := congrArg Prod.snd hSide
  have hA : assembleBlobTx env opts contract input header gasTipCap gasLimit
      nonce cid sidecar = .ok tx := congrArg Prod.fst h7
  have hLog : l5 = log := congrArg Prod.snd h7
  rw [hH2] at hTip
  rw [hOrd2] at hGas
  exact ⟨header, gasTipCap, l1, gasLimit, l2, nonce, l3, cid, sidecar,
    hH1, hTip, hOrd1, hGas, hNonce, hCid1, hSide1, hA,
    hLog.symm.trans (hSide2.symm.trans hCid2)⟩

theorem stepHeader_eval0 {env : Env} {header : Header}
    (hh : env.headerByNumber = .ok header) :
    stepHeader env [] = (.ok header, [NetCall.headerByNumber]) := by
  simp [stepHeader, hh]

theorem andThen_checkLt {β : Type} {fee tip : Int} {l : List NetCall} (h : fee < tip)
    (f : Unit → List NetCall → Except Err β × List NetCall) :
    andThen (checkFeeOrdering fee tip l) f
      = (.error (.invalidFeeOrdering fee tip), l) := by
  rw [checkFeeOrdering, if_pos h]
  simp [andThen]

/-- When the fee-ordering check fails, `createBlobTx` stops with exactly the
`invalidFeeOrdering` error carrying the resolved fee cap and tip cap. -/
theorem createBlobTx_feeOrdering_lt {env : Env} {opts : TransactOpts}
    {contract : Option Nat} {input blobData : List Nat} {header : Header} {tip : Int}
    (hh : env.headerByNumber = .ok header)
    (ht : resolveTipCap env opts = .ok tip)
    (hlt : resolveFeeCap opts tip header < tip) :
    (createBlobTx env opts contract input blobData []).1
      = .error (.invalidFeeOrdering (resolveFeeCap opts tip header) tip) := by
  obtain ⟨l1, hTip⟩ := stepTipCap_of_resolve ht [NetCall.headerByNumber]
  unfold createBlobTx
  simp only [andThen_cont (stepHeader_eval0 hh), andThen_cont hTip, andThen_checkLt hlt]

/-- Conversely, an `invalidFeeOrdering` error can only come from the
fee-ordering check, with exactly the resolved values. -/
theorem createBlobTx_feeOrdering_error_inv {env : Env} {opts : TransactOpts}
    {contract : Option Nat} {input blobData : List Nat} {f t : Int}
    {log : List NetCall}
    (hres : createBlobTx env opts contract input blobData [] =
      (.error (.invalidFeeOrdering f t), log)) :
    ∃ header gasTipCap,
      env.headerByNumber = .ok header
      ∧ resolveTipCap env opts = .ok gasTipCap
      ∧ f = resolveFeeCap opts gasTipCap header
      ∧ t = gasTipCap
      ∧ resolveFeeCap opts gasTipCap header < gasTipCap := by
  unfold createBlobTx at hres
  rcases andThen_error hres with hH | ⟨header, l0, hH, h1⟩
  · obtain ⟨s, hs⟩ := stepHeader_error_shape hH
    simp at hs
  obtain ⟨hH1, -⟩ := stepHeader_ok hH
  rcases andThen_error h1 with hT | ⟨gasTipCap, l1, hTip, h2⟩
  · obtain ⟨s, hs⟩ := stepTipCap_error_shape hT
    simp at hs
  obtain ⟨hTip1, -⟩ := stepTipCap_ok hTip
  rcases andThen_error h2 with hO | ⟨u, l1b, hOrd, h3⟩
  · obtain ⟨hlt, heq, -⟩ := checkFeeOrdering_error hO
    injection heq with heq1 heq2
    exact ⟨header, gasTipCap, hH1, hTip1, heq1, heq2, hlt⟩
  rcases andThen_error h3 with hG | ⟨gasLimit, l2, hGas, h4⟩
  · obtain ⟨s, hs⟩ := stepGasLimit_error_shape hG
    simp at hs
  rcases andThen_error h4 with hN | ⟨nonce, l3, hNonce, h5⟩
  · obtain ⟨s, hs⟩ := stepNonce_error_shape hN
    simp at hs
  rcases andThen_error h5 with hC | ⟨cid, l4, hCid, h6⟩
  · obtain ⟨s, hs⟩ := stepChainID_error_shape hC
    simp at hs
  rcases andThen_error h6 with hS | ⟨sidecar, l5, hSide, h7⟩
  · have hS1 : MakeSidecarWithSingleBlob env blobData
        = .error (.invalidFeeOrdering f t) := congrArg Prod.fst hS
    rcases MakeSidecar_error_shape hS1 with hps | ⟨s, hs⟩
    · simp at hps
    · simp at hs
  have hA : assembleBlobTx env opts contract input header gasTipCap gasLimit
      nonce cid sidecar = .error (.invalidFeeOrdering f t) := congrArg Prod.fst h7
  have hpanic := assembleBlobTx_error hA
  simp at hpanic

/-! ### Claim theorems -/

/-- C4: if the intent carries no signing capability, construction fails with
`NoSigner` and the network-call log stays empty — no header fetch, tip
suggestion, gas estimate, nonce fetch, chain-id fetch, or broadcast is
issued, and the result does not depend on the payloads at all. -/
theorem C4_noSigner_failsFast (env : Env) (opts : TransactOpts)
    (contract : Option Nat) (input blobData : List Nat)
    (h : opts.Signer = none) :
    TransactBlobTx env opts contract input blobData [] =
      ((none, some Err.noSigner), []) := by
  unfold TransactBlobTx
  rw [h]

/-- Witness for C4 at scenario D: a concrete intent with no signer. -/
theorem C4_witness :
    opts4.Signer = none
    ∧ TransactBlobTx envX opts4 none [] [] [] = ((none, some Err.noSigner), []) :=
  ⟨rfl, C4_noSigner_failsFast envX opts4 none [] [] rfl⟩

/-- C5: for every payload of length at most the blob capacity, when the
commitment and proof computations succeed the sidecar builder returns
exactly one blob — the payload zero-padded to the fixed capacity — exactly
one commitment over that blob and exactly one proof binding the blob and
the commitment. -/
theorem C5_sidecar_singleBlob (env : Env) (data : List Nat) (cmt prf : Nat)
    (hlen : data.length ≤ BlobBytes)
    (hc : env.blobToCommitment (mkBlob data) = .ok cmt)
    (hp : env.computeBlobProof (mkBlob data) cmt = .ok prf) :
    MakeSidecarWithSingleBlob env data =
      .ok { Blobs := [mkBlob data], Commitments := [cmt], Proofs := [prf] }
    ∧ mkBlob data = data ++ List.replicate (BlobBytes - data.length) 0
    ∧ (mkBlob data).length = BlobBytes := by
  have hblob : mkBlob data = data ++ List.replicate (BlobBytes - data.length) 0 := by
    unfold mkBlob
    rw [List.take_of_length_le hlen]
  refine ⟨?_, hblob, ?_⟩
  · unfold MakeSidecarWithSingleBlob
    rw [if_neg (by omega)]
    simp only [exceptBind_cont (mapExternal_eval hc), exceptBind_cont (mapExternal_eval hp)]
  · rw [hblob]
    simp only [List.length_append, List.length_replicate]
    omega

/-- Witness for C5: a 3-byte payload under the trivial KZG capabilities. -/
theorem C5_witness :
    ([1, 2, 3] : List Nat).length ≤ BlobBytes
    ∧ MakeSidecarWithSingleBlob envX [1, 2, 3] =
        .ok { Blobs := [mkBlob [1, 2, 3]], Commitments := [0], Proofs := [0] }
    ∧ mkBlob [1, 2, 3]
        = [1, 2, 3] ++ List.replicate (BlobBytes - ([1, 2, 3] : List Nat).length) 0
    ∧ (mkBlob [1, 2, 3]).length = BlobBytes :=
  ⟨by decide, C5_sidecar_singleBlob envX [1, 2, 3] 0 0 (by decide) rfl rfl⟩

/-- C2 (amended): an over-capacity payload makes the sidecar builder fail
with `payloadTooLarge`, whose message is the fixed string naming the
128 KiB limit — the actual payload length is not part of the message. -/
theorem C2_payloadTooLarge (env : Env) (data : List Nat)
    (h : data.length > BlobBytes) :
    MakeSidecarWithSingleBlob env data = .error Err.payloadTooLarge
    ∧ Err.message .payloadTooLarge = "data is bigger than 128k" := by
  constructor
  · unfold MakeSidecarWithSingleBlob
    rw [if_pos h]
  · rfl

/-- Counterexample for C2 as stated: at payload length 131073 (scenario B)
the builder does fail, but the error message does not carry the digits of
the actual payload length. -/
theorem C2_counterexample :
    MakeSidecarWithSingleBlob envX (List.replicate 131073 0)
      = .error Err.payloadTooLarge
    ∧ ¬ (String.toList "131073" <:+: String.toList (Err.message Err.payloadTooLarge)) := by
  constructor
  · unfold MakeSidecarWithSingleBlob
    rw [if_pos (by rw [List.length_replicate]; decide)]
  · decide

/-- Witness for C2 (amended) at scenario B's payload length 131073. -/
theorem C2_witness :
    (List.replicate 131073 (0 : Nat)).length > BlobBytes
    ∧ MakeSidecarWithSingleBlob envX (List.replicate 131073 0)
        = .error Err.payloadTooLarge
    ∧ Err.message .payloadTooLarge = "data is bigger than 128k" :=
  ⟨by rw [List.length_replicate]; decide,
    C2_payloadTooLarge envX (List.replicate 131073 0)
      (by rw [List.length_replicate]; decide)⟩

/-- C1 (amended): when signing succeeds but broadcasting fails, the call
returns `nil` together with the submission error — the signed transaction is
NOT returned, so the caller cannot retry the submission without re-signing. -/
theorem C1_submitFailure (env : Env) (opts : TransactOpts)
    (contract : Option Nat) (input blobData : List Nat)
    (signer : Nat → BlobTx → Except String BlobTx)
    (rawTx signedTx : BlobTx) (l2 : List NetCall) (e : String)
    (hs : opts.Signer = some signer)
    (hraw : createBlobTx env opts contract input blobData [] = (.ok rawTx, l2))
    (hsig : signer opts.From rawTx = .ok signedTx)
    (hnosend : opts.NoSend = false)
    (hsend : env.sendTransaction signedTx = .error e) :
    TransactBlobTx env opts contract input blobData [] =
      ((none, some (Err.external e)), l2 ++ [NetCall.sendTransaction signedTx]) := by
  simp [TransactBlobTx, hs, hraw, hsig, hnosend, hsend]

/-- Counterexample for C1 as stated: a concrete run in which signing
succeeds and broadcasting fails returns no transaction at all (`nil` in the
Go source, line 40) rather than the signed transaction alongside the
error. -/
theorem C1_counterexample :
    (TransactBlobTx envSendFail optsSend none [] [] []).1.1 = none
    ∧ (TransactBlobTx envSendFail optsSend none [] [] []).1.2
        = some (Err.external "boom") := by
  constructor <;> rfl

/-- Witness for C1 (amended): the same concrete run, through the theorem. -/
theorem C1_witness :
    TransactBlobTx envSendFail optsSend none [] [] [] =
      ((none, some (Err.external "boom")),
        [NetCall.headerByNumber, NetCall.chainID] ++ [NetCall.sendTransaction txS]) :=
  C1_submitFailure envSendFail optsSend none [] [] idSigner txS txS
    [NetCall.headerByNumber, NetCall.chainID] "boom" rfl rfl rfl rfl rfl

/-- C3: construction fails with `invalidFeeOrdering` exactly when the
resolved fee cap is strictly below the resolved tip cap; the error carries
both values and its message prints both; and whenever construction succeeds
the assembled transaction satisfies `GasTipCap ≤ GasFeeCap`. -/
theorem C3_feeOrdering (env : Env) (opts : TransactOpts) (contract : Option Nat)
    (input blobData : List Nat) (header : Header) (tip : Int)
    (hh : env.headerByNumber = .ok header)
    (ht : resolveTipCap env opts = .ok tip) :
    ((∃ f t, (createBlobTx env opts contract input blobData []).1
        = .error (.invalidFeeOrdering f t))
      ↔ resolveFeeCap opts tip header < tip)
    ∧ (resolveFeeCap opts tip header < tip →
        (createBlobTx env opts contract input blobData []).1
          = .error (.invalidFeeOrdering (resolveFeeCap opts tip header) tip)
        ∧ ∃ a b c, (Err.invalidFeeOrdering (resolveFeeCap opts tip header) tip).message
            = a ++ toString (resolveFeeCap opts tip header) ++ b ++ toString tip ++ c)
    ∧ (∀ tx log, createBlobTx env opts contract input blobData [] = (.ok tx, log) →
        tx.GasTipCap ≤ tx.GasFeeCap) := by
  refine ⟨⟨?_, ?_⟩, fun hlt => ⟨createBlobTx_feeOrdering_lt hh ht hlt,
    "maxFeePerGas (", ") < maxPriorityFeePerGas (", ")", rfl⟩, ?_⟩
  · rintro ⟨f, t, h1⟩
    have hfull : createBlobTx env opts contract input blobData []
        = (.error (.invalidFeeOrdering f t),
           (createBlobTx env opts contract input blobData []).2) :=
      Prod.ext_iff.mpr ⟨h1, rfl⟩
    obtain ⟨header', tip', hH', hT', -, -, hlt⟩ :=
      createBlobTx_feeOrdering_error_inv hfull
    rw [hh] at hH'
    injection hH' with hH'
    rw [ht] at hT'
    injection hT' with hT'
    rw [hT', hH']
    exact hlt
  · intro hlt
    exact ⟨resolveFeeCap opts tip header, tip,
      createBlobTx_feeOrdering_lt hh ht hlt⟩
  · intro tx log hres
    obtain ⟨header', gasTipCap, l1, gasLimit, l2, nonce, l3, cid, sidecar,
      hH1, hTip, hOrd1, hGas, hNonce, hCid1, hSide1, hA, hLog⟩ :=
      createBlobTx_ok_inv hres
    obtain ⟨h1, h2, h3, h4, htx⟩ := assembleBlobTx_ok hA
    subst htx
    show gasTipCap.toNat ≤ (resolveFeeCap opts gasTipCap header').toNat
    have hle := not_lt.mp hOrd1
    omega

/-- Witness for C3 at scenario C: explicit tip cap 10 and fee cap 5. -/
theorem C3_witness :
    (createBlobTx envX opts3 none [] [] []).1
      = .error (.invalidFeeOrdering (5 : Int) 10)
    ∧ ∃ a b c, (Err.invalidFeeOrdering (5 : Int) 10).message
        = a ++ toString (5 : Int) ++ b ++ toString (10 : Int) ++ c :=
  (C3_feeOrdering envX opts3 none [] [] hdrX 10 rfl rfl).2.1 (by decide)

/-- C6: when no fee-cap override is supplied the assembled transaction's fee
cap equals the resolved tip cap plus two times the fetched header's base
fee; a supplied override is used as-is. -/
theorem C6_feeCap (env : Env) (opts : TransactOpts) (contract : Option Nat)
    (input blobData : List Nat) (tx : BlobTx) (log : List NetCall)
    (header : Header) (tip : Int)
    (hh : env.headerByNumber = .ok header)
    (ht : resolveTipCap env opts = .ok tip)
    (hres : createBlobTx env opts contract input blobData [] = (.ok tx, log)) :
    (opts.GasFeeCap = none → (tx.GasFeeCap : Int) = tip + 2 * header.BaseFee)
    ∧ (∀ f, opts.GasFeeCap = some f → (tx.GasFeeCap : Int) = f) := by
  obtain ⟨header', gasTipCap, l1, gasLimit, l2, nonce, l3, cid, sidecar,
    hH1, hTip, hOrd1, hGas, hNonce, hCid1, hSide1, hA, hLog⟩ :=
    createBlobTx_ok_inv hres
  rw [hh] at hH1
  injection hH1 with hH1
  have htip := (stepTipCap_ok hTip).1
  rw [ht] at htip
  injection htip with htip
  obtain ⟨h1, h2, h3, h4, htx⟩ := assembleBlobTx_ok hA
  subst htx
  constructor
  · intro hnone
    show ((resolveFeeCap opts gasTipCap header').toNat : Int)
      = tip + 2 * header.BaseFee
    rw [Int.toNat_of_nonneg h3]
    simp only [resolveFeeCap, hnone]
    rw [← hH1, ← htip]
    ring
  · intro f hf
    show ((resolveFeeCap opts gasTipCap header').toNat : Int) = f
    rw [Int.toNat_of_nonneg h3]
    simp only [resolveFeeCap, hf]

/-- Witness for C6 at scenario A's override-free intent: base fee 7,
suggested tip 1, assembled fee cap 15 = 1 + 2·7. -/
theorem C6_witness : ((tx6.GasFeeCap : Nat) : Int) = 1 + 2 * 7 :=
  (C6_feeCap envX opts6 none [] [] tx6 log6 hdrX 1 rfl rfl rfl).1 rfl

/-- C7 (amended): an explicit nonce is used after the `Uint64()` truncation
(absolute value modulo `2 ^ 64` — verbatim exactly when it fits 64 bits)
and no pending-nonce query is issued; with no explicit nonce, the pending
nonce of the sending account is fetched and used. -/
theorem C7_nonce (env : Env) (opts : TransactOpts) (contract : Option Nat)
    (input blobData : List Nat) (tx : BlobTx) (log : List NetCall)
    (hres : createBlobTx env opts contract input blobData [] = (.ok tx, log)) :
    (∀ n, opts.Nonce = some n →
        tx.Nonce = n.natAbs % 2 ^ 64 ∧ ∀ a, NetCall.pendingNonceAt a ∉ log)
    ∧ (opts.Nonce = none → ∀ pn, env.pendingNonceAt opts.From = .ok pn →
        tx.Nonce = pn ∧ NetCall.pendingNonceAt opts.From ∈ log) := by
  obtain ⟨header, gasTipCap, l1, gasLimit, l2, nonce, l3, cid, sidecar,
    hH1, hTip, hOrd1, hGas, hNonce, hCid1, hSide1, hA, hLog⟩ :=
    createBlobTx_ok_inv hres
  obtain ⟨-, -, -, -, htx⟩ := assembleBlobTx_ok hA
  subst htx hLog
  obtain ⟨hN1, hN2⟩ := stepNonce_ok hNonce
  obtain ⟨-, hl1⟩ := stepTipCap_ok hTip
  obtain ⟨hG1, hG2⟩ := stepGasLimit_ok hGas
  constructor
  · intro n hn
    obtain ⟨hval, hl3⟩ := hN1 n hn
    refine ⟨hval, ?_⟩
    intro a
    rw [hl3]
    by_cases hz : opts.GasLimit = 0
    · obtain ⟨-, hl2⟩ := hG2 hz
      rw [hl2]
      rcases hl1 with hl1 | hl1 <;> rw [hl1] <;> simp
    · obtain ⟨-, hl2⟩ := hG1 hz
      rw [hl2]
      rcases hl1 with hl1 | hl1 <;> rw [hl1] <;> simp
  · intro hnone pn hpn
    obtain ⟨hq, hl3⟩ := hN2 hnone
    rw [hpn] at hq
    injection hq with hq
    refine ⟨hq.symm, ?_⟩
    rw [hl3]
    simp

/-- Counterexample for C7 as stated: the explicit nonce `2 ^ 64` is not used
verbatim — the assembled transaction's nonce is 0. -/
theorem C7_counterexample :
    opts7.Nonce = some ((2 ^ 64 : Nat) : Int)
    ∧ Except.map BlobTx.Nonce (createBlobTx envX opts7 none [] [] []).1 = .ok 0
    ∧ (0 : Nat) ≠ 2 ^ 64 :=
  ⟨rfl, rfl, by decide⟩

/-- Witness for C7 (amended) at scenario E: explicit nonce 42, no
pending-nonce call in the log. -/
theorem C7_witness :
    txE.Nonce = (42 : Int).natAbs % 2 ^ 64
    ∧ ∀ a, NetCall.pendingNonceAt a ∉ logE :=
  (C7_nonce envX optsE none [] [] txE logE rfl).1 42 rfl

/-- C8: a nonzero gas-limit override is used as-is and no estimation call is
issued; otherwise the gas limit is the estimator's return value, and the
estimation message carries exactly the sender, the recipient, the resolved
tip and fee caps, and the calldata `input` — the blob payload is not part of
the message. -/
theorem C8_gasLimit (env : Env) (opts : TransactOpts) (contract : Option Nat)
    (input blobData : List Nat) (tx : BlobTx) (log : List NetCall)
    (header : Header) (tip : Int)
    (hh : env.headerByNumber = .ok header)
    (ht : resolveTipCap env opts = .ok tip)
    (hres : createBlobTx env opts contract input blobData [] = (.ok tx, log)) :
    (opts.GasLimit ≠ 0 → tx.Gas = opts.GasLimit ∧ ∀ m, NetCall.estimateGas m ∉ log)
    ∧ (opts.GasLimit = 0 →
        env.estimateGas (estimateMsg opts contract input tip
          (resolveFeeCap opts tip header)) = .ok tx.Gas
        ∧ NetCall.estimateGas (estimateMsg opts contract input tip
            (resolveFeeCap opts tip header)) ∈ log
        ∧ estimateMsg opts contract input tip (resolveFeeCap opts tip header)
            = { From := opts.From, To := contract, GasPrice := none,
                GasTipCap := some tip,
                GasFeeCap := some (resolveFeeCap opts tip header),
                Value := none, Data := input }) := by
  obtain ⟨header', gasTipCap, l1, gasLimit, l2, nonce, l3, cid, sidecar,
    hH1, hTip, hOrd1, hGas, hNonce, hCid1, hSide1, hA, hLog⟩ :=
    createBlobTx_ok_inv hres
  rw [hh] at hH1
  injection hH1 with hH1
  have htip := (stepTipCap_ok hTip).1
  rw [ht] at htip
  injection htip with htip
  subst hH1 htip
  obtain ⟨-, -, -, -, htx⟩ := assembleBlobTx_ok hA
  subst htx hLog
  obtain ⟨hN1, hN2⟩ := stepNonce_ok hNonce
  obtain ⟨-, hl1⟩ := stepTipCap_ok hTip
  obtain ⟨hG1, hG2⟩ := stepGasLimit_ok hGas
  have hl3 : l3 = l2 ∨ l3 = l2 ++ [NetCall.pendingNonceAt opts.From] := by
    cases hno : opts.Nonce with
    | none => exact Or.inr (hN2 hno).2
    | some n => exact Or.inl ((hN1 n hno).2)
  constructor
  · intro hz
    obtain ⟨hgl, hl2⟩ := hG1 hz
    refine ⟨hgl, ?_⟩
    intro m
    rcases hl3 with hl3 | hl3 <;> rw [hl3, hl2] <;>
      rcases hl1 with hl1 | hl1 <;> rw [hl1] <;> simp
  · intro hz
    obtain ⟨hest, hl2⟩ := hG2 hz
    refine ⟨hest, ?_, rfl⟩
    rcases hl3 with hl3 | hl3 <;> rw [hl3, hl2] <;> simp

/-- Witness for C8 at scenario A's override-free intent: the estimator was
called with `msg6` and its value 21000 became the gas limit. -/
theorem C8_witness :
    envX.estimateGas msg6 = .ok tx6.Gas
    ∧ NetCall.estimateGas msg6 ∈ log6
    ∧ msg6 = { From := opts6.From, To := none, GasPrice := none,
                GasTipCap := some 1, GasFeeCap := some 15, Value := none,
                Data := [] } :=
  (C8_gasLimit envX opts6 none [] [] tx6 log6 hdrX 1 rfl rfl rfl).2 rfl

/-- C9: the assembled blob fee cap is the pricing function applied to the
header's excess-blob-gas value when present and to the fallback constant
100066 when absent. -/
theorem C9_blobFeeCap (env : Env) (opts : TransactOpts) (contract : Option Nat)
    (input blobData : List Nat) (tx : BlobTx) (log : List NetCall)
    (header : Header)
    (hh : env.headerByNumber = .ok header)
    (hres : createBlobTx env opts contract input blobData [] = (.ok tx, log)) :
    tx.BlobFeeCap = env.calcBlobFee (excessOrDefault header)
    ∧ (∀ e, header.ExcessBlobGas = some e → excessOrDefault header = e)
    ∧ (header.ExcessBlobGas = none → excessOrDefault header = 100066) := by
  obtain ⟨header', gasTipCap, l1, gasLimit, l2, nonce, l3, cid, sidecar,
    hH1, hTip, hOrd1, hGas, hNonce, hCid1, hSide1, hA, hLog⟩ :=
    createBlobTx_ok_inv hres
  rw [hh] at hH1
  injection hH1 with hH1
  subst hH1
  obtain ⟨-, -, -, -, htx⟩ := assembleBlobTx_ok hA
  subst htx
  refine ⟨rfl, ?_, ?_⟩
  · intro e he
    simp [excessOrDefault, he]
  · intro he
    simp [excessOrDefault, he]

/-- Witness for C9: under `envX` the header has no excess-blob-gas
indicator, so the fallback 100066 feeds the pricing function. -/
theorem C9_witness :
    tx6.BlobFeeCap = envX.calcBlobFee (excessOrDefault hdrX)
    ∧ (∀ e, hdrX.ExcessBlobGas = some e → excessOrDefault hdrX = e)
    ∧ (hdrX.ExcessBlobGas = none → excessOrDefault hdrX = 100066) :=
  C9_blobFeeCap envX opts6 none [] [] tx6 log6 hdrX rfl rfl

/-- C10: the assembled transaction's chain id is the fetched chain id
reduced modulo `2 ^ 64` — a fetched id of `2 ^ 64` or more is silently
truncated, not rejected. -/
theorem C10_chainID (env : Env) (opts : TransactOpts) (contract : Option Nat)
    (input blobData : List Nat) (tx : BlobTx) (log : List NetCall) (cid : Nat)
    (hc : env.chainID = .ok cid)
    (hres : createBlobTx env opts contract input blobData [] = (.ok tx, log)) :
    tx.ChainID = cid % 2 ^ 64 := by
  obtain ⟨header, gasTipCap, l1, gasLimit, l2, nonce, l3, cid', sidecar,
    hH1, hTip, hOrd1, hGas, hNonce, hCid1, hSide1, hA, hLog⟩ :=
    createBlobTx_ok_inv hres
  rw [hc] at hCid1
  injection hCid1 with hCid1
  obtain ⟨-, -, -, -, htx⟩ := assembleBlobTx_ok hA
  subst htx
  rw [hCid1]

/-- Witness for C10: a fetched chain id of `2 ^ 64 + 7` yields a successful
construction whose chain id field is 7. -/
theorem C10_witness :
    txBig.ChainID = (2 ^ 64 + 7) % 2 ^ 64
    ∧ ((2 : Nat) ^ 64 + 7) % 2 ^ 64 = 7 :=
  ⟨C10_chainID envBig opts6 none [] [] txBig log6 (2 ^ 64 + 7) rfl rfl,
   by decide⟩

end TaikoRpc
